import Mathlib

/-!
Shallow embedding of `src/data_viz/corr_graph/src/gen_gdf_file.py`, the
script that converts a tabular dataset into a `.GDF` correlation-graph
file: it loads a delimited file into an H2O frame, one-hot encodes the
eligible categorical columns into 1/−1 indicator columns, imputes missing
numeric values with the column median, computes the pairwise Pearson
correlation matrix, and writes a node/edge text file.

The embedding below models, faithfully to that source:
  * the module constants (`REPLACE_CHAR`, `NUM_LEVELS_THRESHOLD`,
    `CORR_THRESHOLD`);
  * the name sanitization (`re.sub` over the character class at line 133,
    plus the second substitution for the apostrophe);
  * the selection of columns to encode (lines 141-147);
  * the encoding loop: the binary-category shortcut (line 162), the
    candidate-name construction and the collision `while` loop
    (lines 166-172), and the 1/−1 indicator materialization
    (lines 173-177);
  * the correlation stage (lines 188-194), where slicing an H2O frame
    with `raw_frame[input_list]` materializes a fresh frame, so the
    in-place `impute` at line 191 acts on a temporary;
  * the graph writer `write_gdf` (lines 100-115); and
  * the step sequence of `main` (lines 121-203), for the backend
    shutdown behaviour.

Machine floats of the original are modelled as `Rat`; missing values as
`Option`.
-/

namespace GenGdfFile

/-- `REPLACE_CHAR = '_'` (source line 72): the replacement character used
both in sanitization and in collision resolution. -/
def REPLACE_CHAR : String := "_"

/-- `NUM_LEVELS_THRESHOLD = 25` (source line 73): categorical columns with
at least this many levels are ignored. -/
def NUM_LEVELS_THRESHOLD : Nat := 25

/-- `CORR_THRESHOLD = 0.01` (source line 74). -/
def CORR_THRESHOLD : Rat := mkRat 1 100

/-- `DROP_LIST = ['id']` (source line 75). -/
def DROP_LIST : List String := ["id"]

/-- The character class of `search_str` (source line 133):
`[\/\\;,\s\.\/<>&\!:\"\)\(\*\+\?\|=#@]`, with `\s` expanded to the
Python 2 whitespace class (space, tab, newline, carriage return,
vertical tab, form feed). -/
def searchChars : List Char :=
  ['/', '\\', ';', ',', ' ', '\t', '\n', '\r', '\x0b', '\x0c',
   '.', '<', '>', '&', '!', ':', '\"', ')', '(', '*', '+', '?', '|', '=', '#', '@']

/-- The apostrophe character, matched by the second `re.sub` pattern
(source lines 155 and 167). -/
def apostropheChar : Char := Char.ofNat 39

/-- `re.sub(search_str, REPLACE_CHAR, s)`: every character of the class is
replaced by `'_'` (`REPLACE_CHAR` is a single character). -/
def subSearch (s : String) : String :=
  String.mk (s.data.map (fun c => if c ∈ searchChars then '_' else c))

/-- `re.sub(r"\'", REPLACE_CHAR, s)` (source lines 155 and 167). -/
def subApostrophe (s : String) : String :=
  String.mk (s.data.map (fun c => if c = apostropheChar then '_' else c))

/-- The two substitutions applied to a column name (lines 154-155) and to
a level label (lines 166-167). -/
def sanitizeName (s : String) : String :=
  subApostrophe (subSearch s)

/-- The levels of a categorical column that actually get an indicator:
the `enumerate(level_list)` loop (line 158) skips a level when
`len(level_list) <= 2 and j > 0` (line 162). -/
def keptLevels (level_list : List String) : List String :=
  (level_list.enum.filter (fun p => !(level_list.length ≤ 2 ∧ p.1 > 0))).map Prod.snd

/-- Fuel-indexed unfolding of the collision `while` loop of lines 170-171:
`while new_name in new_name_list: new_name += REPLACE_CHAR`. The fuel is
only a termination device; `remedyCollision` below supplies enough fuel
for the loop to run to completion. -/
def remedyCollisionAux : Nat → String → List String → String
  | 0, new_name, _ => new_name
  | fuel + 1, new_name, new_name_list =>
    if new_name ∈ new_name_list then
      remedyCollisionAux fuel (new_name ++ REPLACE_CHAR) new_name_list
    else new_name

/-- The collision `while` loop (source lines 170-171): append
`REPLACE_CHAR` until the candidate is not in `new_name_list`. A fuel of
`new_name_list.length + 1` always suffices (see
`remedyCollision_not_mem`). -/
def remedyCollision (new_name : String) (new_name_list : List String) : String :=
  remedyCollisionAux (new_name_list.length + 1) new_name new_name_list

/-- The new-name bookkeeping of one iteration of the loop body
(lines 166-172) for a single level: build
`REPLACE_CHAR.join([name_prefix, level_suffix])`, remedy collisions
against `new_name_list`, and append the result to `new_name_list`. -/
def appendLevelName (namePre : String) (new_name_list : List String) (level : String) :
    List String :=
  new_name_list ++
    [remedyCollision (namePre ++ REPLACE_CHAR ++ sanitizeName level) new_name_list]

/-- The new names created from one encoded column: the `for j, level`
loop (lines 158-172) restricted to its `new_name_list` effect. The name
prefix is the sanitized column name (lines 154-155). -/
def newNamesForColumn (name : String) (level_list : List String)
    (new_name_list : List String) : List String :=
  (keptLevels level_list).foldl (appendLevelName (sanitizeName name)) new_name_list

/-- A source column of the loaded frame as seen by the encoding loop: its
name, its H2O type string (the values of `raw_frame.types`), and its list
of distinct categorical levels (`raw_frame[name].categories()`; empty and
irrelevant for non-categorical columns). -/
structure SrcCol where
  name : String
  ctype : String
  categories : List String
deriving DecidableEq

/-- The H2O types excluded from encoding (source lines 141-142):
`['unknown', 'uuid', 'time', 'real', 'int']`. -/
def nonEncodableTypes : List String := ["unknown", "uuid", "time", "real", "int"]

/-- The columns selected for encoding: type not in `nonEncodableTypes`
(the `try_name_list` comprehension, lines 141-142) and fewer than
`thr = NUM_LEVELS_THRESHOLD` levels (the `encode_list` comprehension,
lines 146-147). -/
def encodeCols (cols : List SrcCol) (thr : Nat) : List SrcCol :=
  cols.filter (fun c => c.ctype ∉ nonEncodableTypes ∧ c.categories.length < thr)

/-- `encode_list` (source lines 146-147), as a list of column names. -/
def encode_list (cols : List SrcCol) (thr : Nat) : List String :=
  (encodeCols cols thr).map SrcCol.name

/-- `new_name_list` at the end of the encoding loop (lines 149-183):
starting from `[]` (line 138), every encoded column appends the names of
its kept levels. -/
def encodeLoopNames (cols : List SrcCol) (thr : Nat) : List String :=
  (encodeCols cols thr).foldl
    (fun acc c => newNamesForColumn c.name c.categories acc) []

/-- The (name, type) pairs of the frame after the encoding loop: the
original columns minus the encoded ones (each encoded column is dropped
at line 181), followed by the indicator columns appended by `cbind`
(line 178), which are numeric (`real`) after `asnumeric` (line 177). -/
def finalFrameCols (cols : List SrcCol) (thr : Nat) : List (String × String) :=
  (cols.filter (fun c => c ∉ encodeCols cols thr)).map (fun c => (c.name, c.ctype))
    ++ (encodeLoopNames cols thr).map (fun n => (n, "real"))

/-- `input_list` (source lines 188-189): the names of the columns of the
encoded frame whose type is `'real'` or `'int'`. -/
def input_list (cols : List SrcCol) (thr : Nat) : List String :=
  ((finalFrameCols cols thr).filter (fun p => p.2 ∈ ["real", "int"])).map Prod.fst

/-- The 1/−1 indicator materialization for one level over the
string-coerced column (source lines 173-177). Line 175 sets the rows
equal to `level` to the string `'1.0'`; line 176 then compares the
still-character column against the numeric literal `1.0`, i.e. against
its string form `"1.0"`, and sets the non-matching rows to `'-1.0'`. -/
def indicatorStrings (level : String) (col : List String) : List String :=
  (col.map (fun v => if v = level then "1.0" else v)).map
    (fun v => if v ≠ "1.0" then "-1.0" else v)

/-- `asnumeric` (source line 177) on the two string values the indicator
construction can produce; any other string would not parse to a number
and is modelled as a missing value. -/
def asnumericVal (s : String) : Option Rat :=
  if s = "1.0" then some 1 else if s = "-1.0" then some (-1) else none

/-- The numeric indicator column created for `level` from the
string-coerced source column (lines 173-177). -/
def indicatorColumn (level : String) (col : List String) : List (Option Rat) :=
  (indicatorStrings level col).map asnumericVal

/-- An H2O frame restricted to what the correlation stage needs: named
columns of numeric cells, a missing cell being `none`. -/
abbrev Frame := List (String × List (Option Rat))

/-- `raw_frame[input_list]`: slicing an H2O frame by a list of column
names materializes a new frame holding copies of those columns, in the
given order; it does not alias `raw_frame`. -/
def selectCols (frame : Frame) (names : List String) : Frame :=
  names.filterMap (fun n => frame.find? (fun c => c.1 == n))

/-- Insertion of a value into a sorted list, for the median. -/
def insertSorted (x : Rat) : List Rat → List Rat
  | [] => [x]
  | y :: ys => if x ≤ y then x :: y :: ys else y :: insertSorted x ys

/-- Insertion sort of the non-missing values of a column. -/
def sortRats (l : List Rat) : List Rat :=
  l.foldr insertSorted []

/-- The median of a list of values (mean of the two middle elements for
an even count), the imputation value of `impute(method='median')`. -/
def medianOf (l : List Rat) : Rat :=
  let s := sortRats l
  let n := s.length
  if n = 0 then 0
  else if n % 2 = 1 then s.getD (n / 2) 0
  else (s.getD (n / 2 - 1) 0 + s.getD (n / 2) 0) / 2

/-- `frame.impute(method='median')` (source line 191): in every column,
replace each missing cell by the median of the column's non-missing
values. The imputation happens in place on the frame it is called on. -/
def imputeMedian (frame : Frame) : Frame :=
  frame.map (fun c =>
    (c.1, c.2.map (fun v => some (v.getD (medianOf (c.2.filterMap id))))))

/-- The frame handed to `.cor()` by the correlation stage (source
lines 191-194). Line 191 is `raw_frame[input_list].impute(method='median')`:
it imputes a freshly materialized slice, and that slice is never bound;
line 194 then evaluates `raw_frame[input_list].cor()` on a second fresh
slice of the untouched `raw_frame`. -/
def corInputFrame (raw : Frame) (inputNames : List String) : Frame :=
  let _imputedSlice := imputeMedian (selectCols raw inputNames)
  selectCols raw inputNames

/-- Whether a frame still contains a missing value. -/
def hasNA (frame : Frame) : Bool :=
  frame.any (fun c => c.2.any (fun v => v.isNone))

/-- The Pearson correlation matrix as handed to `write_gdf`, i.e. the
pandas dataframe `corr_frame.as_data_frame()` (source line 200): column
labels plus the rows of matrix entries. `shape[0]` is the number of
rows, `shape[1]` the number of columns. -/
structure CorrFrame where
  columns : List String
  entries : List (List Rat)
deriving DecidableEq

/-- `corr_frame_df.shape[0]`. -/
def shape0 (df : CorrFrame) : Nat := df.entries.length

/-- `corr_frame_df.shape[1]`. -/
def shape1 (df : CorrFrame) : Nat := df.columns.length

/-- `corr_frame_df.iat[i,j]`. -/
def iat (df : CorrFrame) (i j : Nat) : Rat :=
  (df.entries.getD i []).getD j 0

/-- The node lines of `write_gdf` (source lines 104-105): one line
`str(i) + ',' + corr_frame_df.columns[i]` for each `i` in
`range(0, corr_frame_df.shape[0])`. -/
def nodeLines (df : CorrFrame) : List String :=
  (List.range (shape0 df)).map (fun i => toString i ++ "," ++ df.columns.getD i "")

/-- The `(i, j, weight)` records written by the edge loop of `write_gdf`
(source lines 109-115): `i` ranges over `range(shape[0])`, `j` over
`range(shape[1])`, and a record is written iff `i > j` (line 111) and
`corr_frame_df.iat[i,j] > corr_threshold` (line 113). -/
def edgeTriples (df : CorrFrame) (corr_threshold : Rat) : List (Nat × Nat × Rat) :=
  (List.range (shape0 df)).flatMap (fun i =>
    (List.range (shape1 df)).filterMap (fun j =>
      if i > j then
        if iat df i j > corr_threshold then some (i, j, iat df i j) else none
      else none))

/-- The `(node1, node2)` id pairs of the written edge records. -/
def edgePairs (df : CorrFrame) (corr_threshold : Rat) : List (Nat × Nat) :=
  (edgeTriples df corr_threshold).map (fun e => (e.1, e.2.1))

/-- The edge lines (source line 114): `str(i) + ',' + str(j) + ',' + str(ij_)`. -/
def edgeLines (df : CorrFrame) (corr_threshold : Rat) : List String :=
  (edgeTriples df corr_threshold).map
    (fun e => toString e.1 ++ "," ++ toString e.2.1 ++ "," ++ toString e.2.2)

/-- The full line sequence written by `write_gdf` (source lines 100-115):
the node header (line 103), the node lines, the edge header (line 108),
and the edge lines. -/
def write_gdf (df : CorrFrame) (corr_threshold : Rat) : List String :=
  ["nodedef>name VARCHAR,label VARCHAR"] ++ nodeLines df
    ++ ["edgedef>node1 VARCHAR,node2 VARCHAR, weight DOUBLE"]
    ++ edgeLines df corr_threshold

/-- The stages of `main` (source lines 121-203), in program order:
`h2o.init` (line 124), `h2o.import_file` plus the drop (lines 125-130),
the encoding loop (lines 152-183), imputation and correlation
(lines 191-194), `write_gdf` (line 200), and `h2o.cluster().shutdown()`
(line 203). -/
inductive Step where
  | init
  | importFile
  | encodeEnums
  | imputeCorr
  | writeOut
  | shutdown
deriving DecidableEq

/-- The stage sequence of `main`. -/
def mainSteps : List Step :=
  [Step.init, Step.importFile, Step.encodeEnums, Step.imputeCorr,
   Step.writeOut, Step.shutdown]

/-- Execution of a stage sequence when the stages named by `fails` raise:
`main` has no `try`/`finally`, so an exception raised by a stage
propagates out of `main` at once and the following stages never run. The
result lists the stages that were entered. -/
def runSteps (fails : Step → Bool) : List Step → List Step
  | [] => []
  | s :: rest => if fails s then [s] else s :: runSteps fails rest

/-- The stages of `main` that are entered on a run where the stages named
by `fails` raise. -/
def attemptedSteps (fails : Step → Bool) : List Step :=
  runSteps fails mainSteps

/-- Whether `h2o.cluster().shutdown()` (source line 203) is reached. -/
def shutdownReached (fails : Step → Bool) : Bool :=
  (attemptedSteps fails).contains Step.shutdown

/-- Whether the run raises at some stage. -/
def runFailed (fails : Step → Bool) : Bool :=
  (attemptedSteps fails).any fails

/-! ## Properties of the collision loop -/

theorem length_append_replace (s : String) :
    (s ++ REPLACE_CHAR).length = s.length + 1 := by
  rw [String.length_append]
  rfl

theorem countP_longer_lt {s : String} {acc : List String} (h : s ∈ acc) :
    acc.countP (fun t => s.length + 1 ≤ t.length)
      < acc.countP (fun t => s.length ≤ t.length) := by
  induction acc with
  | nil => cases h
  | cons a tl ih =>
      have hmono : tl.countP (fun t => decide (s.length + 1 ≤ t.length))
          ≤ tl.countP (fun t => decide (s.length ≤ t.length)) :=
        List.countP_mono_left (by
          intro x _ hx
          simp only [decide_eq_true_eq] at hx ⊢
          omega)
      rw [List.countP_cons, List.countP_cons]
      simp only [decide_eq_true_eq]
      rcases List.mem_cons.1 h with hsa | hstl
      · subst hsa
        rw [if_neg (by omega), if_pos (by omega)]
        omega
      · have hlt := ih hstl
        by_cases ha : s.length + 1 ≤ a.length
        · rw [if_pos ha, if_pos (by omega)]
          omega
        · rw [if_neg ha]
          split <;> omega

theorem remedyCollisionAux_not_mem :
    ∀ (fuel : Nat) (s : String) (acc : List String),
      acc.countP (fun t => s.length ≤ t.length) < fuel →
      remedyCollisionAux fuel s acc ∉ acc := by
  intro fuel
  induction fuel with
  | zero => intro s acc h; omega
  | succ n ih =>
      intro s acc h
      by_cases hmem : s ∈ acc
      · rw [remedyCollisionAux, if_pos hmem]
        apply ih
        have hstep := countP_longer_lt hmem
        have hlen : ∀ t : String,
            decide ((s ++ REPLACE_CHAR).length ≤ t.length)
              = decide (s.length + 1 ≤ t.length) := by
          intro t
          rw [length_append_replace]
        simp only [hlen]
        omega
      · rw [remedyCollisionAux, if_neg hmem]
        exact hmem

theorem remedyCollision_not_mem (s : String) (acc : List String) :
    remedyCollision s acc ∉ acc :=
  remedyCollisionAux_not_mem _ s acc
    (Nat.lt_succ_of_le (List.countP_le_length _))

theorem appendLevelName_nodup (namePre : String) (acc : List String) (level : String)
    (h : acc.Nodup) : (appendLevelName namePre acc level).Nodup := by
  unfold appendLevelName
  simp [List.nodup_append, h, remedyCollision_not_mem]

theorem foldl_appendLevelName_nodup (namePre : String) :
    ∀ (ls : List String) (acc : List String), acc.Nodup →
      (ls.foldl (appendLevelName namePre) acc).Nodup
  | [], _, h => h
  | l :: ls, _acc, h =>
      foldl_appendLevelName_nodup namePre ls _ (appendLevelName_nodup _ _ l h)

theorem newNamesForColumn_nodup (name : String) (level_list : List String)
    (acc : List String) (h : acc.Nodup) :
    (newNamesForColumn name level_list acc).Nodup :=
  foldl_appendLevelName_nodup _ _ _ h

theorem foldl_newNames_nodup :
    ∀ (cs : List SrcCol) (acc : List String), acc.Nodup →
      (cs.foldl (fun acc c => newNamesForColumn c.name c.categories acc) acc).Nodup
  | [], _, h => h
  | c :: cs, acc, h =>
      foldl_newNames_nodup cs _ (newNamesForColumn_nodup c.name c.categories acc h)

/-- Claim C7: throughout the encoding loop the generated indicator-column
names stay pairwise distinct. A candidate that collides with any earlier
name (from any source column) gets `REPLACE_CHAR` appended until it is
absent from `new_name_list` (`contains` is `false`), so the final
`new_name_list` of the whole loop has no duplicate. -/
theorem encode_names_globally_distinct (cols : List SrcCol) (thr : Nat)
    (s : String) (acc : List String) :
    (acc.contains (remedyCollision s acc)) = false ∧
    (encodeLoopNames cols thr).Nodup := by
  constructor
  · simpa using remedyCollision_not_mem s acc
  · exact foldl_newNames_nodup _ [] List.nodup_nil

/-- Claim C5: a categorical column with at most two distinct levels that
is encoded produces exactly one new indicator name, built from the first
level of its level enumeration; the second level of a binary column
produces nothing. -/
theorem binary_enum_single_indicator (c : SrcCol) (acc : List String)
    (h1 : 0 < c.categories.length) (h2 : c.categories.length ≤ 2) :
    newNamesForColumn c.name c.categories acc
      = acc ++ [remedyCollision
          (sanitizeName c.name ++ REPLACE_CHAR ++ sanitizeName (c.categories.headD ""))
          acc] := by
  rcases hcat : c.categories with _ | ⟨a, _ | ⟨b, _ | ⟨x, tl⟩⟩⟩
  · rw [hcat] at h1; simp at h1
  · rfl
  · rfl
  · rw [hcat] at h2; simp at h2

/-! ## Properties of the graph writer -/

theorem mem_edgeTriples {df : CorrFrame} {thr : Rat} {e : Nat × Nat × Rat}
    (he : e ∈ edgeTriples df thr) :
    e.2.1 < e.1 ∧ e.2.2 = iat df e.1 e.2.1 ∧ iat df e.1 e.2.1 > thr := by
  simp only [edgeTriples, List.mem_flatMap, List.mem_filterMap, List.mem_range] at he
  obtain ⟨i, _, j, _, heq⟩ := he
  by_cases hij : i > j
  · rw [if_pos hij] at heq
    by_cases hthr : iat df i j > thr
    · rw [if_pos hthr] at heq
      cases heq
      exact ⟨hij, rfl, hthr⟩
    · rw [if_neg hthr] at heq
      cases heq
  · rw [if_neg hij] at heq
    cases heq

/-- Claim C8: every edge record written by `write_gdf` has its first node
id strictly greater than its second (no self-edges, no reverse edges),
and the written `(node1, node2)` id pairs are pairwise distinct, so each
unordered pair appears at most once. -/
theorem edge_records_strict_lower_triangle (df : CorrFrame) (thr : Rat) :
    (∀ e ∈ edgeTriples df thr, e.2.1 < e.1) ∧ (edgePairs df thr).Nodup := by
  constructor
  · intro e he
    exact (mem_edgeTriples he).1
  · rw [edgePairs, edgeTriples, List.map_flatMap]
    rw [List.nodup_flatMap]
    constructor
    · intro i _
      apply List.Nodup.map_on
      · intro x hx y hy hxy
        simp only [List.mem_filterMap, List.mem_range] at hx hy
        obtain ⟨jx, _, hjx⟩ := hx
        obtain ⟨jy, _, hjy⟩ := hy
        have hx2 : x.1 = i ∧ x.2.1 = jx ∧ x.2.2 = iat df i jx := by
          by_cases h1 : i > jx
          · rw [if_pos h1] at hjx
            by_cases h2 : iat df i jx > thr
            · rw [if_pos h2] at hjx; cases hjx; exact ⟨rfl, rfl, rfl⟩
            · rw [if_neg h2] at hjx; cases hjx
          · rw [if_neg h1] at hjx; cases hjx
        have hy2 : y.1 = i ∧ y.2.1 = jy ∧ y.2.2 = iat df i jy := by
          by_cases h1 : i > jy
          · rw [if_pos h1] at hjy
            by_cases h2 : iat df i jy > thr
            · rw [if_pos h2] at hjy; cases hjy; exact ⟨rfl, rfl, rfl⟩
            · rw [if_neg h2] at hjy; cases hjy
          · rw [if_neg h1] at hjy; cases hjy
        have hfst : x.2.1 = y.2.1 := congrArg Prod.snd hxy
        have : jx = jy := by rw [← hx2.2.1, ← hy2.2.1, hfst]
        subst this
        calc x = (x.1, x.2.1, x.2.2) := rfl
          _ = (i, jx, iat df i jx) := by rw [hx2.1, hx2.2.1, hx2.2.2]
          _ = (y.1, y.2.1, y.2.2) := by rw [hy2.1, hy2.2.1, hy2.2.2]
          _ = y := rfl
      · apply List.Nodup.filterMap
        · intro a b c hca hcb
          simp only [Option.mem_def] at hca hcb
          have hc1 : c.2.1 = a := by
            by_cases h1 : i > a
            · rw [if_pos h1] at hca
              by_cases h2 : iat df i a > thr
              · rw [if_pos h2] at hca; cases hca; rfl
              · rw [if_neg h2] at hca; cases hca
            · rw [if_neg h1] at hca; cases hca
          have hc2 : c.2.1 = b := by
            by_cases h1 : i > b
            · rw [if_pos h1] at hcb
              by_cases h2 : iat df i b > thr
              · rw [if_pos h2] at hcb; cases hcb; rfl
              · rw [if_neg h2] at hcb; cases hcb
            · rw [if_neg h1] at hcb; cases hcb
          rw [← hc1, hc2]
        · exact List.nodup_range _
    · apply List.Pairwise.imp ?_ (List.nodup_range (shape0 df))
      intro i i' hne p hpi hpi'
      simp only [List.mem_map, List.mem_filterMap, List.mem_range] at hpi hpi'
      obtain ⟨x, ⟨jx, _, hjx⟩, hpx⟩ := hpi
      obtain ⟨y, ⟨jy, _, hjy⟩, hpy⟩ := hpi'
      have hx1 : x.1 = i := by
        by_cases h1 : i > jx
        · rw [if_pos h1] at hjx
          by_cases h2 : iat df i jx > thr
          · rw [if_pos h2] at hjx; cases hjx; rfl
          · rw [if_neg h2] at hjx; cases hjx
        · rw [if_neg h1] at hjx; cases hjx
      have hy1 : y.1 = i' := by
        by_cases h1 : i' > jy
        · rw [if_pos h1] at hjy
          by_cases h2 : iat df i' jy > thr
          · rw [if_pos h2] at hjy; cases hjy; rfl
          · rw [if_neg h2] at hjy; cases hjy
        · rw [if_neg h1] at hjy; cases hjy
      apply hne
      have h1 : p.1 = i := by rw [← hpx, hx1]
      have h2 : p.1 = i' := by rw [← hpy, hy1]
      rw [← h1, h2]

/-- Witness for C8 at a concrete 2×2 matrix whose lone edge record is
`(1, 0, 1)`. -/
theorem edge_records_strict_lower_triangle_witness :
    ((1, 0, (1 : Rat)) : Nat × Nat × Rat).2.1 < ((1, 0, (1 : Rat)) : Nat × Nat × Rat).1 :=
  (edge_records_strict_lower_triangle ⟨["a", "b"], [[1, 1], [1, 1]]⟩ 0).1
    (1, 0, (1 : Rat)) (by decide)

/-- Claim C9: for a (square) correlation matrix the node section has
exactly one line per column, in matrix order, of the form
`str(i) + ',' + columns[i]`, the ids being the contiguous 0-based
sequence of column positions. -/
theorem node_section_contiguous_ids (df : CorrFrame) (h : shape0 df = shape1 df) :
    (nodeLines df).length = df.columns.length ∧
    ∀ i, i < df.columns.length →
      (nodeLines df).getD i "" = toString i ++ "," ++ df.columns.getD i "" := by
  constructor
  · rw [nodeLines, List.length_map, List.length_range]
    exact h
  · intro i hi
    have hi0 : i < shape0 df := by rw [h]; exact hi
    rw [nodeLines, List.getD_eq_getElem?_getD, List.getElem?_map,
      List.getElem?_range hi0]
    rfl

/-- Witness for C9 at a concrete 2×2 matrix. -/
theorem node_section_contiguous_ids_witness :
    (nodeLines ⟨["a", "b"], [[1, 0], [0, 1]]⟩).length
        = (CorrFrame.mk ["a", "b"] [[1, 0], [0, 1]]).columns.length ∧
    (nodeLines ⟨["a", "b"], [[1, 0], [0, 1]]⟩).getD 1 ""
        = toString 1 ++ "," ++ (CorrFrame.mk ["a", "b"] [[1, 0], [0, 1]]).columns.getD 1 "" :=
  ⟨(node_section_contiguous_ids ⟨["a", "b"], [[1, 0], [0, 1]]⟩ (by decide)).1,
   (node_section_contiguous_ids ⟨["a", "b"], [[1, 0], [0, 1]]⟩ (by decide)).2 1 (by decide)⟩

/-- Claim C10: on a correlation matrix with zero columns (empty frame)
`write_gdf` produces exactly the two section header lines, with no node
lines and no edge lines. -/
theorem write_gdf_empty_frame (corr_threshold : Rat) :
    write_gdf ⟨[], []⟩ corr_threshold
      = ["nodedef>name VARCHAR,label VARCHAR",
         "edgedef>node1 VARCHAR,node2 VARCHAR, weight DOUBLE"] := by
  simp [write_gdf, nodeLines, edgeLines, edgeTriples, shape0, shape1]

/-- Claim C1 is refuted by the code: `write_gdf` compares the signed
correlation to the threshold (`ij_ > corr_threshold`, source line 113),
not its absolute value as the script's own docstrings state. On the 2×2
correlation matrix with correlation −9/10 and the default threshold 1/100
the pair has `|corr|` above the threshold yet no edge line is written. -/
theorem write_gdf_drops_strong_negative_edge :
    |mkRat (-9) 10| > CORR_THRESHOLD ∧
    edgeLines ⟨["a", "b"], [[1, mkRat (-9) 10], [mkRat (-9) 10, 1]]⟩ CORR_THRESHOLD = [] ∧
    write_gdf ⟨["a", "b"], [[1, mkRat (-9) 10], [mkRat (-9) 10, 1]]⟩ CORR_THRESHOLD
      = ["nodedef>name VARCHAR,label VARCHAR", "0,a", "1,b",
         "edgedef>node1 VARCHAR,node2 VARCHAR, weight DOUBLE"] := by
  decide

/-- Claim C2 is refuted by the code on a level literally labelled
`"1.0"`: the negative condition (source line 176) compares the
string-coerced column against the literal `1.0`, so a row whose original
value is the string `"1.0"` is never set to −1 when some other level is
encoded. For the 3-level column with values `["1.0", "a", "b"]`, the
indicator for level `"a"` (a kept level) gives row 0 the value 1 even
though its value differs from `"a"`. -/
theorem indicator_keeps_foreign_one_string :
    "a" ∈ keptLevels ["1.0", "a", "b"] ∧
    ("1.0" : String) ≠ "a" ∧
    indicatorColumn "a" ["1.0", "a", "b"] = [some 1, some 1, some (-1)] := by
  decide

/-- Claim C3 is refuted by the code: line 191 imputes a freshly
materialized slice `raw_frame[input_list]` and discards it, and line 194
computes the correlation on a second, untouched slice. On a frame with a
missing value the frame handed to `.cor()` still contains the missing
value, while the (discarded) imputed slice does not. -/
theorem cor_runs_on_unimputed_frame :
    corInputFrame [("x", [some 1, none, some 3, some 10])] ["x"]
      = [("x", [some 1, none, some 3, some 10])] ∧
    hasNA (corInputFrame [("x", [some 1, none, some 3, some 10])] ["x"]) = true ∧
    hasNA (imputeMedian (selectCols [("x", [some 1, none, some 3, some 10])] ["x"])) = false := by
  decide

/-- Counterexample to claim C4: on the run where `h2o.import_file` raises
(an exit path of `main`), the run fails and
`h2o.cluster().shutdown()` is never reached, because `main` has no
`try`/`finally` around the pipeline. -/
theorem shutdown_skipped_on_import_error :
    runFailed (fun s => s == Step.importFile) = true ∧
    shutdownReached (fun s => s == Step.importFile) = false := by
  decide

/-- Claim C4 as amended: the backend shutdown at the bottom of `main` is
reached exactly on the runs where every preceding stage (init, import,
encoding, imputation/correlation, writing) completes without raising; an
error at any intermediate stage skips the shutdown. -/
theorem shutdown_reached_iff_steps_succeed (fails : Step → Bool) :
    shutdownReached fails = true ↔
      (fails Step.init = false ∧ fails Step.importFile = false ∧
       fails Step.encodeEnums = false ∧ fails Step.imputeCorr = false ∧
       fails Step.writeOut = false) := by
  simp only [shutdownReached, attemptedSteps, mainSteps, runSteps]
  cases h1 : fails Step.init <;>
    cases h2 : fails Step.importFile <;>
      cases h3 : fails Step.encodeEnums <;>
        cases h4 : fails Step.imputeCorr <;>
          cases h5 : fails Step.writeOut <;>
            simp [h1, h2, h3, h4, h5, List.contains]

/-! ## Properties of the column selection -/

theorem filter_erase_of_pred_false {α : Type} [DecidableEq α] (p : α → Bool)
    (l : List α) (x : α) (h : p x = false) :
    (l.erase x).filter p = l.filter p := by
  induction l with
  | nil => rfl
  | cons a tl ih =>
      by_cases hax : a = x
      · subst hax; simp [List.erase_cons, List.filter_cons, h]
      · simp [List.erase_cons, hax, List.filter_cons, ih]

theorem encodeCols_pred_false_of_highcard {c : SrcCol} {thr : Nat}
    (h : thr ≤ c.categories.length) :
    (decide (c.ctype ∉ nonEncodableTypes ∧ c.categories.length < thr)) = false := by
  simp only [decide_eq_false_iff_not]
  intro hand
  omega

theorem encodeCols_erase {cols : List SrcCol} {thr : Nat} {c : SrcCol}
    (h : thr ≤ c.categories.length) :
    encodeCols (cols.erase c) thr = encodeCols cols thr := by
  rw [encodeCols, encodeCols]
  exact filter_erase_of_pred_false _ cols c (encodeCols_pred_false_of_highcard h)

theorem encodeLoopNames_erase {cols : List SrcCol} {thr : Nat} {c : SrcCol}
    (h : thr ≤ c.categories.length) :
    encodeLoopNames (cols.erase c) thr = encodeLoopNames cols thr := by
  rw [encodeLoopNames, encodeLoopNames, encodeCols_erase h]

theorem not_mem_encodeCols_of_numeric {cols : List SrcCol} {thr : Nat} {c : SrcCol}
    (h : c.ctype ∈ (["real", "int"] : List String)) : c ∉ encodeCols cols thr := by
  intro hmem
  rw [encodeCols, List.mem_filter] at hmem
  have hp := hmem.2
  simp only [decide_eq_true_eq] at hp
  have : c.ctype ∈ nonEncodableTypes := by
    simp only [List.mem_cons] at h
    rcases h with h | h | h
    · rw [h]; decide
    · rw [h]; decide
    · simp at h
  exact hp.1 this

theorem numeric_part_eq (E : List SrcCol) (hE : ∀ c : SrcCol, c.ctype ∈ (["real", "int"] : List String) → c ∉ E) :
    ∀ cols : List SrcCol,
      (((cols.filter (fun c => c ∉ E)).map (fun c => (c.name, c.ctype))).filter
          (fun p => p.2 ∈ ["real", "int"])).map Prod.fst
        = (cols.filter (fun c => c.ctype ∈ ["real", "int"])).map SrcCol.name := by
  intro cols
  induction cols with
  | nil => rfl
  | cons a tl ih =>
      by_cases hnum : a.ctype ∈ (["real", "int"] : List String)
      · have haE : a ∉ E := hE a hnum
        rw [List.filter_cons, if_pos (by simpa using haE), List.map_cons,
          List.filter_cons, if_pos (by simpa using hnum), List.map_cons,
          List.filter_cons, if_pos (by simpa using hnum), List.map_cons, ih]
      · by_cases haE : a ∈ E
        · rw [List.filter_cons, if_neg (by simpa using haE),
            List.filter_cons, if_neg (by simpa using hnum), ih]
        · rw [List.filter_cons, if_pos (by simpa using haE), List.map_cons,
            List.filter_cons, if_neg (by simpa using hnum),
            List.filter_cons, if_neg (by simpa using hnum), ih]

theorem indicator_part_eq :
    ∀ L : List String,
      ((L.map (fun n => (n, "real"))).filter (fun p => p.2 ∈ ["real", "int"])).map Prod.fst
        = L := by
  intro L
  induction L with
  | nil => rfl
  | cons n tl ih =>
      show List.map Prod.fst
          ((n, "real") :: (List.map (fun n => (n, "real")) tl).filter
            (fun p => decide (p.2 ∈ ["real", "int"])))
        = n :: tl
      rw [List.map_cons, ih]

theorem input_list_eq (cols : List SrcCol) (thr : Nat) :
    input_list cols thr
      = (cols.filter (fun c => c.ctype ∈ ["real", "int"])).map SrcCol.name
        ++ encodeLoopNames cols thr := by
  rw [input_list, finalFrameCols, List.filter_append, List.map_append]
  congr 1
  · exact numeric_part_eq (encodeCols cols thr)
      (fun c hc => not_mem_encodeCols_of_numeric hc) cols
  · exact indicator_part_eq (encodeLoopNames cols thr)

theorem numeric_filter_erase {cols : List SrcCol} {c : SrcCol}
    (h : c.ctype ∉ nonEncodableTypes) :
    (cols.erase c).filter (fun x => x.ctype ∈ ["real", "int"])
      = cols.filter (fun x => x.ctype ∈ ["real", "int"]) := by
  apply filter_erase_of_pred_false
  simp only [decide_eq_false_iff_not]
  intro hc
  apply h
  simp only [List.mem_cons] at hc
  rcases hc with hc | hc | hc
  · rw [nonEncodableTypes, hc]; decide
  · rw [nonEncodableTypes, hc]; decide
  · simp at hc

/-- Claim C6: a column is selected for encoding iff its type is outside
`['unknown', 'uuid', 'time', 'real', 'int']` and its distinct-level count
is strictly below the threshold. A categorical column at or above the
threshold is not encoded, survives the loop untouched (same name and
type in the final frame), and contributes nothing to `input_list` — the
columns of the correlation matrix, hence the nodes and edges of the
output — as removing it from the loaded frame leaves `input_list`
unchanged. -/
theorem encode_selection_iff (cols : List SrcCol) (thr : Nat) (c : SrcCol)
    (hmem : c ∈ cols) (hnodup : (cols.map SrcCol.name).Nodup) :
    (c.name ∈ encode_list cols thr ↔
      (c.ctype ∉ nonEncodableTypes ∧ c.categories.length < thr)) ∧
    (c.ctype ∉ nonEncodableTypes → thr ≤ c.categories.length →
      ((c.name, c.ctype) ∈ finalFrameCols cols thr ∧
       input_list (cols.erase c) thr = input_list cols thr)) := by
  constructor
  · constructor
    · intro hin
      rw [encode_list, List.mem_map] at hin
      obtain ⟨c2, hc2, hname⟩ := hin
      rw [encodeCols, List.mem_filter] at hc2
      have : c2 = c := List.inj_on_of_nodup_map hnodup hc2.1 hmem hname
      subst this
      simpa using hc2.2
    · intro hcond
      rw [encode_list, List.mem_map]
      exact ⟨c, by rw [encodeCols, List.mem_filter]; exact ⟨hmem, by simpa using hcond⟩, rfl⟩
  · intro hc1 hc2
    constructor
    · rw [finalFrameCols, List.mem_append]
      left
      rw [List.mem_map]
      refine ⟨c, ?_, rfl⟩
      rw [List.mem_filter]
      refine ⟨hmem, ?_⟩
      simp only [decide_eq_true_eq]
      intro habs
      rw [encodeCols, List.mem_filter] at habs
      have := habs.2
      simp only [decide_eq_true_eq] at this
      omega
    · rw [input_list_eq, input_list_eq, encodeLoopNames_erase hc2,
        numeric_filter_erase hc1]

/-- Witness for C6 at a two-column frame with threshold 2, the
categorical column `city` having exactly 2 = threshold levels. -/
theorem encode_selection_iff_witness :
    ¬((SrcCol.mk "city" "enum" ["u", "v"]).name
        ∈ encode_list [SrcCol.mk "amount" "real" [], SrcCol.mk "city" "enum" ["u", "v"]] 2) ∧
    ((SrcCol.mk "city" "enum" ["u", "v"]).name, (SrcCol.mk "city" "enum" ["u", "v"]).ctype)
        ∈ finalFrameCols [SrcCol.mk "amount" "real" [], SrcCol.mk "city" "enum" ["u", "v"]] 2 ∧
    input_list
        (([SrcCol.mk "amount" "real" [], SrcCol.mk "city" "enum" ["u", "v"]]).erase
          (SrcCol.mk "city" "enum" ["u", "v"])) 2
      = input_list [SrcCol.mk "amount" "real" [], SrcCol.mk "city" "enum" ["u", "v"]] 2 := by
  have h := encode_selection_iff
    [SrcCol.mk "amount" "real" [], SrcCol.mk "city" "enum" ["u", "v"]] 2
    (SrcCol.mk "city" "enum" ["u", "v"]) (by decide) (by decide)
  have h2 := h.2 (by decide) (by decide)
  exact ⟨fun habs => absurd (h.1.1 habs).2 (by decide), h2.1, h2.2⟩

/-- Witness for C5 at a binary status column with levels `yes`/`no`. -/
theorem binary_enum_single_indicator_witness :
    newNamesForColumn (SrcCol.mk "status" "enum" ["yes", "no"]).name
        (SrcCol.mk "status" "enum" ["yes", "no"]).categories []
      = [] ++ [remedyCollision
          (sanitizeName (SrcCol.mk "status" "enum" ["yes", "no"]).name ++ REPLACE_CHAR
            ++ sanitizeName ((SrcCol.mk "status" "enum" ["yes", "no"]).categories.headD ""))
          []] :=
  binary_enum_single_indicator (SrcCol.mk "status" "enum" ["yes", "no"]) []
    (by decide) (by decide)

end GenGdfFile
